import Mathlib

/-!
Shallow embedding of the weekly-award subsystem of the inugoya discord bot
(`src/bot/features/weeklyAwards/db.js` and
`src/bot/features/weeklyAwards/weeklyAward.js`).

Time is modelled in integer milliseconds since the epoch.  SQLite's
`julianday('now') - julianday(timestamp) > @days` comparison is rendered as
`now - timestamp > days * 86400000` over `Int`, which agrees with the real
formula for the integral `days` the code uses.
-/

namespace WeeklyAwards

/-- One row of the `reacted_messages` table (`db.js`, `WeeklyAward` constructor):
primary key (guild_id, channel_id, message_id), plus the snapshot columns and
audit timestamps. -/
structure Rec where
  guildId : String
  channelId : String
  messageId : String
  guildName : String
  channelName : String
  content : String
  author : String
  url : String
  reactionsCount : Nat
  timestamp : Int
  createdAt : Int
  updatedAt : Int
deriving DecidableEq, Repr

/-- The fields of a discord message that `db.set` reads. -/
structure Message where
  guildId : String
  channelId : String
  id : String
  guildName : String
  channelName : String
  content : String
  author : String
  url : String
  createdTimestamp : Int
deriving DecidableEq, Repr

/-- The `where guild_id = … and channel_id = … and message_id = …` key test. -/
def recHasKey (g c m : String) (r : Rec) : Bool :=
  r.guildId == g && r.channelId == c && r.messageId == m

/-- The fresh row inserted by `WeeklyAward.set` when the key is absent:
`created_at` / `updated_at` take their `datetime('now')` defaults. -/
def insertRow (msg : Message) (reactionsCount : Nat) (now : Int) : Rec :=
  { guildId := msg.guildId
    channelId := msg.channelId
    messageId := msg.id
    guildName := msg.guildName
    channelName := msg.channelName
    content := msg.content
    author := msg.author
    url := msg.url
    reactionsCount := reactionsCount
    timestamp := msg.createdTimestamp
    createdAt := now
    updatedAt := now }

/-- The `on conflict … do update set` clause of `WeeklyAward.set`: it refreshes
`guild_name`, `channel_name`, `content`, `author`, `reactions_count` and
`updated_at`, and leaves `url`, `timestamp` and `created_at` untouched. -/
def updateRow (msg : Message) (reactionsCount : Nat) (now : Int) (r : Rec) : Rec :=
  { r with
    guildName := msg.guildName
    channelName := msg.channelName
    content := msg.content
    author := msg.author
    reactionsCount := reactionsCount
    updatedAt := now }

/-- Models `WeeklyAward.set` (`db.js` lines 108–167): SQL upsert on the
(guild_id, channel_id, message_id) key. -/
def setRecord (store : List Rec) (msg : Message) (reactionsCount : Nat) (now : Int) :
    List Rec :=
  if store.any (recHasKey msg.guildId msg.channelId msg.id) then
    store.map fun r =>
      if recHasKey msg.guildId msg.channelId msg.id r then updateRow msg reactionsCount now r
      else r
  else
    store ++ [insertRow msg reactionsCount now]

/-- Models `WeeklyAward.delete` (`db.js` lines 245–264): delete the row with the key,
a no-op when absent. -/
def deleteRecord (store : List Rec) (g c m : String) : List Rec :=
  store.filter fun r => !(recHasKey g c m r)

/-- The `where guild_id = @guildId and julianday('now') - julianday(timestamp) > @days`
predicate of `WeeklyAward.deleteOutdated`. -/
def isOutdated (g : String) (days : Nat) (nowMs : Int) (r : Rec) : Bool :=
  r.guildId == g && (days : Int) * 86400000 < nowMs - r.timestamp

/-- The values yielded by the `deleteOutdated` async generator: first the
outdated-record count, then (only when a delete ran) a bare completion yield. -/
inductive OutdatedYield where
  | count (n : Nat)
  | done
deriving DecidableEq, Repr

/-- Models `WeeklyAward.deleteOutdated` (`db.js` lines 271–303): run the count
statement and yield its result; when the count is positive, run the delete
statement over the same `where` clause and yield completion. -/
def deleteOutdated (store : List Rec) (g : String) (days : Nat) (nowMs : Int) :
    List OutdatedYield × List Rec :=
  let n := (store.filter (isOutdated g days nowMs)).length
  if 0 < n then
    ([.count n, .done], store.filter fun r => !(isOutdated g days nowMs r))
  else
    ([.count n], store)

/-- One row of the `post_target` table (`WeeklyAwardConfig`). -/
structure ConfigRec where
  guildId : String
  guildName : String
  channelId : String
  channelName : String
  createdAt : Int
  updatedAt : Int
deriving DecidableEq, Repr

/-- Models `WeeklyAwardConfig.get`: select the row whose `guild_id` matches. -/
def configGet (config : List ConfigRec) (g : String) : Option ConfigRec :=
  config.find? fun r => r.guildId == g

/-! ### Busy-retry (`db.js`: the `try`/`catch` around every mutating statement)

Every mutating method catches the error, retries after `await setTimeout()`
when it is a `TypeError` whose message contains
`'database connection is busy'`, and rethrows otherwise.  The environment is
modelled as a fault schedule: for each attempt either `none` (the statement
runs) or `some e` (the statement throws `e`). -/

/-- A JavaScript exception as the catch clauses inspect it: its class
(`TypeError` or not) and its message. -/
structure JsError where
  isTypeError : Bool
  message : String
deriving DecidableEq, Repr

/-- Tests whether a character list begins with another. -/
def charsStart : List Char → List Char → Bool
  | _, [] => true
  | [], _ :: _ => false
  | h :: hs, n :: ns => h == n && charsStart hs ns

/-- Tests whether a character list occurs contiguously inside another. -/
def charsContain (needle : List Char) : List Char → Bool
  | [] => charsStart [] needle
  | c :: rest => charsStart (c :: rest) needle || charsContain needle rest

/-- Models JavaScript's `hay.includes(needle)` substring test. -/
def strIncludes (hay needle : String) : Bool :=
  charsContain needle.data hay.data

/-- Models `e instanceof TypeError && e.message.includes('database connection is busy')`,
the condition under which every catch clause retries. -/
def isBusyError (e : JsError) : Bool :=
  e.isTypeError && strIncludes e.message "database connection is busy"

/-- Outcome of running a mutating operation under a fault schedule: the number
of cooperative yields (`await setTimeout()`) taken before it finished, and
either the final state or the propagated error.  `none` when the schedule ends
before any attempt succeeds or throws a non-busy error. -/
def runWithRetry (op : σ → σ) (s : σ) : List (Option JsError) → Option (Nat × Except JsError σ)
  | [] => none
  | none :: _ => some (0, .ok (op s))
  | some e :: rest =>
    if isBusyError e then
      (runWithRetry op s rest).map fun p => (p.1 + 1, p.2)
    else
      some (0, .error e)

/-! ### TallyEngine (`weeklyAward.js`, `tick`, lines 106–134) -/

/-- Distinct `reactionsCount` values of the fetched messages, sorted in
descending order: `Object.entries(talliedMessages).sort(([a,],[b,]) => (+b)-(+a))`
over the keys of the tally object. -/
def sortedCountsDesc (msgs : List Rec) : List Nat :=
  List.insertionSort (· ≥ ·) (msgs.map Rec.reactionsCount).dedup

/-- The sorted tally: each distinct count paired with the messages carrying
exactly that count, in their original order (the `reduce` appends each message
to its count's bucket in iteration order). -/
def talliedGroups (msgs : List Rec) : List (Nat × List Rec) :=
  (sortedCountsDesc msgs).map fun c => (c, msgs.filter fun r => r.reactionsCount == c)

/-- One element of the `contents` array built by the tally loop: the rank the
loop variable held for the group, the group's reaction count, and its
messages. -/
structure ContentBlock (α : Type) where
  rank : Nat
  count : Nat
  messages : List α
deriving DecidableEq, Repr

/-- The `for … of messagesArray` loop: `rank` starts at 1 and advances by
`messages.length` after every group. -/
def buildContents (rank : Nat) : List (Nat × List α) → List (ContentBlock α)
  | [] => []
  | (count, msgs) :: rest => ⟨rank, count, msgs⟩ :: buildContents (rank + msgs.length) rest

/-- The whole tally step: `messagesArray.filter((_, i) => i < Math.min(messagesArray.length, 3))`
keeps the first `min (length) 3` groups, i.e. the first three, before the rank
loop runs. -/
def tallyContents (msgs : List Rec) : List (ContentBlock Rec) :=
  buildContents 1 ((talliedGroups msgs).take 3)

/-! ### AwardScheduler (`weeklyAward.js`) -/

/-- Discord channel types as `tick` distinguishes them: `GuildText` or
anything else. -/
inductive ChannelType where
  | guildText
  | other
deriving DecidableEq, Repr

structure Channel where
  name : String
  type : ChannelType
deriving DecidableEq, Repr

structure Guild where
  name : String
  channels : List Channel
deriving DecidableEq, Repr

/-- Models `client.guilds.fetch()` → find the guild by display name → find the channel
by display name in its cache (`tick`, lines 69–71). -/
def resolveChannel (guilds : List Guild) (guildName channelName : String) : Option Channel :=
  match guilds.find? fun g => g.name == guildName with
  | none => none
  | some g => g.channels.find? fun c => c.name == channelName

/-- Models `channel?.type === ChannelType.GuildText` (`tick`, line 73). -/
def resolvedIsText (guilds : List Guild) (guildName channelName : String) : Bool :=
  match resolveChannel guilds guildName channelName with
  | some c => c.type == ChannelType.guildText
  | none => false

/-- The clock as `tick` reads it: `dayjs().tz()` supplies weekday/hour/minute
for the match test, and the same instant in epoch milliseconds feeds the
`julianday('now')` age comparison inside `deleteOutdated`. -/
structure ClockNow where
  day : Nat
  hour : Nat
  minute : Nat
  ms : Int
deriving DecidableEq, Repr

/-- Models `now.day() === weekday && now.hour() === hour && now.minute() === minute`. -/
def timeMatches (now : ClockNow) (weekday hour minute : Nat) : Bool :=
  now.day == weekday && now.hour == hour && now.minute == minute

/-- Models `setTimeout(…, 86400 * 1000 * 6.9)`: 596 160 000 ms, the "almost next
week" delay after a matched tick. -/
def nextWeekDelayMs : Nat := 86400 * 1000 * 69 / 10

/-- Models `setTimeout(…, 1000)`: the polling delay after a non-matching tick. -/
def pollDelayMs : Nat := 1000

/-- A message posted straight to the resolved channel by one tick: either the
primary report carrying the first content block, or the "no winners" notice. -/
inductive ChannelPost where
  | primary (block : ContentBlock Rec)
  | noWinners
deriving DecidableEq, Repr

/-- Everything observable about one `tick` evaluation: the messages sent to
the channel, the content blocks sent into the opened thread, the store after
the tick, whether `db.vacuum()` ran, and the delay of the rescheduled check. -/
structure TickOutput where
  sends : List ChannelPost
  threadSends : List (ContentBlock Rec)
  storeAfter : List Rec
  vacuumed : Bool
  nextDelayMs : Nat
deriving DecidableEq, Repr

/-- Models the `fetchMessageByIds`-based collection (`tick`, lines 90–104): records of
other guilds map to `null`, records the resolver cannot fetch map to `null`,
the rest survive in store order.  `fetchable` abstracts the external
`fetchMessageByIds` collaborator. -/
def collectMessages (guildId : String) (fetchable : Rec → Bool) (store : List Rec) :
    List Rec :=
  store.filter fun r => r.guildId == guildId && fetchable r

/-- Models `tick` (`weeklyAward.js`, lines 61–165) as a pure function of one
evaluation.  On a weekday/hour/minute match it resolves the target channel by
guild and channel display name; if that yields a guild-text channel it runs
the 7-day outdated cleanup (vacuuming when anything was deleted), then either
posts the tally report (primary message plus thread posts) or — when no record
in the whole store has a positive count — the "no winners" notice; in every
matched case it reschedules 6.9 days ahead, otherwise 1 second ahead. -/
def tick (now : ClockNow) (guildId guildName channelName : String)
    (weekday hour minute : Nat) (guilds : List Guild) (fetchable : Rec → Bool)
    (store : List Rec) : TickOutput :=
  if timeMatches now weekday hour minute then
    if resolvedIsText guilds guildName channelName then
      let cleaned := (deleteOutdated store guildId 7 now.ms).2
      let vacuumed := (deleteOutdated store guildId 7 now.ms).1.contains .done
      if cleaned.any fun r => 0 < r.reactionsCount then
        let contents := tallyContents (collectMessages guildId fetchable cleaned)
        match contents with
        | [] =>
          { sends := [], threadSends := [], storeAfter := cleaned
            vacuumed := vacuumed, nextDelayMs := nextWeekDelayMs }
        | first :: rest =>
          { sends := [.primary first], threadSends := rest, storeAfter := cleaned
            vacuumed := vacuumed, nextDelayMs := nextWeekDelayMs }
      else
        { sends := [.noWinners], threadSends := [], storeAfter := cleaned
          vacuumed := vacuumed, nextDelayMs := nextWeekDelayMs }
    else
      { sends := [], threadSends := [], storeAfter := store
        vacuumed := false, nextDelayMs := nextWeekDelayMs }
  else
    { sends := [], threadSends := [], storeAfter := store
      vacuumed := false, nextDelayMs := pollDelayMs }

/-- The module-level `instances` map (guild id → timeout id) together with the
set of timeout ids already passed to `clearTimeout`. -/
structure SchedState where
  instances : List (String × Nat)
  cancelled : List Nat
deriving DecidableEq, Repr

/-- Models `stopAward` (`weeklyAward.js`, lines 196–212): when no config record
exists it only logs and returns; otherwise, if the `instances` map has an
entry for the guild, its timeout is cleared — the map entry itself is never
deleted. -/
def stopAward (config : List ConfigRec) (s : SchedState) (guildId : String) :
    SchedState :=
  match configGet config guildId with
  | none => s
  | some _ =>
    match s.instances.lookup guildId with
    | some t => { s with cancelled := t :: s.cancelled }
    | none => s

/-! ### Reaction handlers (`weeklyAward.js`, lines 25–50) -/

/-- The `MessageReactionAdd` handler: bail out for bot authors or non-guild
messages; bail out when the guild has no `post_target` registration; otherwise
upsert the record with the summed reaction count. -/
def onReactionAdd (config : List ConfigRec) (store : List Rec) (msg : Message)
    (authorBot inGuild : Bool) (reactionsCount : Nat) (now : Int) : List Rec :=
  if authorBot || !inGuild then store
  else if (configGet config msg.guildId).isNone then store
  else setRecord store msg reactionsCount now

/-- The `MessageReactionRemove` handler: bail out for bot authors or non-guild
messages; with a positive remaining total upsert the record (no registration
check), with a zero total delete it. -/
def onReactionRemove (store : List Rec) (msg : Message)
    (authorBot inGuild : Bool) (reactionsCount : Nat) (now : Int) : List Rec :=
  if authorBot || !inGuild then store
  else if 0 < reactionsCount then setRecord store msg reactionsCount now
  else deleteRecord store msg.guildId msg.channelId msg.id

/-! ### Concrete sample data for instantiating the theorems -/

/-- A sample tracked record of guild `guild-1` with a given message id and
reaction count. -/
def sampleRec (m : String) (count : Nat) : Rec :=
  { guildId := "guild-1", channelId := "chan-1", messageId := m
    guildName := "Guild One", channelName := "general", content := "hi"
    author := "alice", url := "https://discord.com/x", reactionsCount := count
    timestamp := 0, createdAt := 0, updatedAt := 0 }

/-- A sample record whose item timestamp lies a given number of days in the
past relative to clock instant 0. -/
def agedRec (m : String) (ageDays : Nat) : Rec :=
  { sampleRec m 1 with timestamp := -((ageDays : Int) * 86400000) }

/-- A sample record belonging to a different guild than `sampleRec`. -/
def crossRec : Rec :=
  { sampleRec "msg-b" 1 with guildId := "guild-2" }

/-- A sample discord message in guild `guild-1`. -/
def sampleMsg : Message :=
  { guildId := "guild-1", channelId := "chan-1", id := "msg-1"
    guildName := "Guild One", channelName := "general", content := "hello"
    author := "alice", url := "https://discord.com/y", createdTimestamp := 123 }

/-- A sample `post_target` registration for guild `guild-1`. -/
def sampleCfg : ConfigRec :=
  { guildId := "guild-1", guildName := "Guild One", channelId := "chan-1"
    channelName := "general", createdAt := 0, updatedAt := 0 }

/-- The error better-sqlite3 raises on a busy connection. -/
def busySample : JsError :=
  { isTypeError := true, message := "This database connection is busy executing a query" }

/-- A sample non-busy storage failure. -/
def diskErrSample : JsError :=
  { isTypeError := false, message := "disk I/O error" }

/-! ### General lemmas about the embedded operations -/

/-- Mapping a conditional rewrite over a list none of whose elements satisfy
the condition leaves the list unchanged. -/
theorem map_ite_id_of_all_false {p : α → Bool} {f : α → α} {l : List α}
    (h : ∀ x ∈ l, p x = false) :
    (l.map fun x => if p x then f x else x) = l := by
  induction l with
  | nil => rfl
  | cons a t ih =>
    have ha := h a (List.mem_cons_self a t)
    have ht := ih fun x hx => h x (List.mem_cons_of_mem a hx)
    simp [ha, ht]

/-- Records surviving `deleteOutdated` were already in the store. -/
theorem mem_of_mem_deleteOutdated_snd {store : List Rec} {g : String} {days : Nat}
    {nowMs : Int} {r : Rec} (h : r ∈ (deleteOutdated store g days nowMs).2) :
    r ∈ store := by
  simp only [deleteOutdated] at h
  split at h
  · exact List.mem_of_mem_filter h
  · exact h

/-- The sorted distinct-count list is a permutation of the deduplicated count
list. -/
theorem sortedCountsDesc_perm (msgs : List Rec) :
    (sortedCountsDesc msgs).Perm (msgs.map Rec.reactionsCount).dedup :=
  List.perm_insertionSort _ _

/-- A count appears among the sorted distinct counts exactly when some message
carries it. -/
theorem sortedCountsDesc_mem (msgs : List Rec) (c : Nat) :
    c ∈ sortedCountsDesc msgs ↔ ∃ r ∈ msgs, r.reactionsCount = c := by
  rw [(sortedCountsDesc_perm msgs).mem_iff, List.mem_dedup, List.mem_map]

/-- The sorted distinct counts contain no duplicates. -/
theorem sortedCountsDesc_nodup (msgs : List Rec) : (sortedCountsDesc msgs).Nodup :=
  (sortedCountsDesc_perm msgs).nodup_iff.mpr (List.nodup_dedup _)

/-- The distinct counts are sorted strictly descending. -/
theorem sortedCountsDesc_strict (msgs : List Rec) :
    (sortedCountsDesc msgs).Pairwise (· > ·) := by
  have hs : (sortedCountsDesc msgs).Pairwise (· ≥ ·) :=
    List.sorted_insertionSort _ _
  exact (hs.and (sortedCountsDesc_nodup msgs)).imp
    fun h => lt_of_le_of_ne h.1 h.2.symm

/-- First components of the tallied groups are exactly the sorted distinct
counts. -/
theorem talliedGroups_map_fst (msgs : List Rec) :
    (talliedGroups msgs).map Prod.fst = sortedCountsDesc msgs := by
  simp [talliedGroups, List.map_map, Function.comp_def]

/-- The rank loop leaves each group's count and messages unchanged. -/
theorem buildContents_map (start : Nat) (groups : List (Nat × List α)) :
    (buildContents start groups).map (fun b => (b.count, b.messages)) = groups := by
  induction groups generalizing start with
  | nil => rfl
  | cons p rest ih => cases p with | mk c ms => simp [buildContents, ih]

/-- The rank loop produces one block per group. -/
theorem buildContents_length (start : Nat) (groups : List (Nat × List α)) :
    (buildContents start groups).length = groups.length := by
  induction groups generalizing start with
  | nil => rfl
  | cons p rest ih => cases p with | mk c ms => simp [buildContents, ih]

/-- The rank loop yields no blocks only on no groups. -/
theorem buildContents_eq_nil_iff (start : Nat) (groups : List (Nat × List α)) :
    buildContents start groups = [] ↔ groups = [] := by
  cases groups with
  | nil => simp [buildContents]
  | cons p rest => cases p with | mk c ms => simp [buildContents]

/-- A non-empty message list always yields at least one content block. -/
theorem tallyContents_ne_nil {msgs : List Rec} (h : msgs ≠ []) :
    tallyContents msgs ≠ [] := by
  cases msgs with
  | nil => exact absurd rfl h
  | cons x xs =>
    have hx : x.reactionsCount ∈ sortedCountsDesc (x :: xs) :=
      (sortedCountsDesc_mem _ _).mpr ⟨x, List.mem_cons_self x xs, rfl⟩
    have hsne : sortedCountsDesc (x :: xs) ≠ [] := List.ne_nil_of_mem hx
    have hgne : talliedGroups (x :: xs) ≠ [] := by
      rw [talliedGroups, Ne, List.map_eq_nil_iff]
      exact hsne
    have htne : (talliedGroups (x :: xs)).take 3 ≠ [] := by
      rw [Ne, List.take_eq_nil_iff]
      rintro (h3 | hl)
      · exact absurd h3 (by decide)
      · exact hgne hl
    rw [tallyContents, Ne, buildContents_eq_nil_iff 1]
    exact htne

/-- Rank bookkeeping of the tally loop: the block at position `i` carries rank
`start` plus the sizes of all earlier blocks. -/
theorem buildContents_rank_aux (groups : List (Nat × List α)) :
    ∀ (start i : Nat) (h : i < (buildContents start groups).length),
      ((buildContents start groups).get ⟨i, h⟩).rank
        = start + (((buildContents start groups).take i).map
            (fun b => b.messages.length)).sum := by
  induction groups with
  | nil => intro start i h; simp [buildContents] at h
  | cons p rest ih =>
    intro start i h
    cases p with
    | mk count ms =>
      cases i with
      | zero => simp [buildContents]
      | succ i =>
        have h' : i < (buildContents (start + ms.length) rest).length := by
          simpa [buildContents] using h
        have := ih (start + ms.length) i h'
        simp only [buildContents, List.get_cons_succ, List.take_succ_cons,
          List.map_cons, List.sum_cons] at *
        omega

/-! ### Claim theorems -/

/-- C3: in the tally report the first group gets display rank 1, and the block
at any position `i` carries display rank 1 plus the total number of items in
all higher-ranked blocks. -/
theorem tally_rank_cumulative (msgs : List Rec) (i : Nat)
    (h : i < (tallyContents msgs).length) :
    ((tallyContents msgs).get ⟨i, h⟩).rank
      = 1 + (((tallyContents msgs).take i).map (fun b => b.messages.length)).sum :=
  buildContents_rank_aux _ 1 i h

/-- Witness for C3: count groups {5: [a,b], 3: [c], 1: [d]} get display ranks
1, 3 and 4. -/
theorem tally_rank_cumulative_witness :
    ((tallyContents [sampleRec "a" 5, sampleRec "b" 5, sampleRec "c" 3,
        sampleRec "d" 1]).map (fun b => b.rank) = [1, 3, 4])
    ∧ ((tallyContents [sampleRec "a" 5, sampleRec "b" 5, sampleRec "c" 3,
        sampleRec "d" 1]).get ⟨2, by decide⟩).rank
      = 1 + (((tallyContents [sampleRec "a" 5, sampleRec "b" 5, sampleRec "c" 3,
          sampleRec "d" 1]).take 2).map (fun b => b.messages.length)).sum :=
  ⟨by decide, tally_rank_cumulative _ 2 (by decide)⟩

/-- C4: the tally groups records by exact reaction count (each group holds the
records with exactly its count, in store order), sorts the groups strictly
descending by count, keeps only the first three groups, and a count beyond the
top three appears in no content block at all. -/
theorem tally_top3_grouping (msgs : List Rec)
    (_hpos : ∀ r ∈ msgs, 0 < r.reactionsCount) :
    (∀ p ∈ talliedGroups msgs, p.2 = msgs.filter fun r => r.reactionsCount == p.1)
    ∧ ((talliedGroups msgs).map Prod.fst).Pairwise (· > ·)
    ∧ (∀ c, c ∈ (talliedGroups msgs).map Prod.fst ↔ ∃ r ∈ msgs, r.reactionsCount = c)
    ∧ ((tallyContents msgs).map fun b => (b.count, b.messages))
        = (talliedGroups msgs).take 3
    ∧ (tallyContents msgs).length = min (talliedGroups msgs).length 3
    ∧ (∀ c ∈ ((talliedGroups msgs).map Prod.fst).drop 3,
        ∀ b ∈ tallyContents msgs, b.count ≠ c) := by
  have hmapfst := talliedGroups_map_fst msgs
  have hstrict : ((talliedGroups msgs).map Prod.fst).Pairwise (· > ·) := by
    rw [hmapfst]; exact sortedCountsDesc_strict msgs
  have htake : ((tallyContents msgs).map fun b => (b.count, b.messages))
      = (talliedGroups msgs).take 3 := by
    unfold tallyContents; exact buildContents_map 1 _
  refine ⟨?_, hstrict, ?_, htake, ?_, ?_⟩
  · intro p hp
    simp only [talliedGroups, List.mem_map] at hp
    obtain ⟨c, _, rfl⟩ := hp
    rfl
  · intro c; rw [hmapfst]; exact sortedCountsDesc_mem msgs c
  · rw [tallyContents, buildContents_length, List.length_take, Nat.min_comm]
  · intro c hc b hb hEq
    have hmem : (b.count, b.messages) ∈ (talliedGroups msgs).take 3 := by
      rw [← htake]; exact List.mem_map_of_mem _ hb
    have hcount : b.count ∈ ((talliedGroups msgs).map Prod.fst).take 3 := by
      rw [← List.map_take]
      exact List.mem_map_of_mem Prod.fst hmem
    have hnodup : ((talliedGroups msgs).map Prod.fst).Nodup :=
      hstrict.imp ne_of_gt
    have hdisj : (((talliedGroups msgs).map Prod.fst).take 3).Disjoint
        (((talliedGroups msgs).map Prod.fst).drop 3) := by
      rw [← List.take_append_drop 3 ((talliedGroups msgs).map Prod.fst)] at hnodup
      exact (List.nodup_append.mp hnodup).2.2
    exact hdisj hcount (hEq ▸ hc)

/-- Witness for C4: with five distinct count groups only the top three appear
in the report. -/
theorem tally_top3_grouping_witness :
    ((tallyContents [sampleRec "a" 5, sampleRec "b" 4, sampleRec "c" 3,
        sampleRec "d" 2, sampleRec "e" 1]).map (fun b => b.count) = [5, 4, 3])
    ∧ ((tallyContents [sampleRec "a" 5, sampleRec "b" 4, sampleRec "c" 3,
        sampleRec "d" 2, sampleRec "e" 1]).map fun b => (b.count, b.messages))
      = (talliedGroups [sampleRec "a" 5, sampleRec "b" 4, sampleRec "c" 3,
          sampleRec "d" 2, sampleRec "e" 1]).take 3 :=
  ⟨by decide, (tally_top3_grouping _ (by decide)).2.2.2.1⟩

/-- C5: upserting the same key twice with different reaction counts leaves all
other rows untouched and exactly one row for that key, carrying the latest
count, the first insert's createdAt and item timestamp, and a refreshed
updatedAt. -/
theorem upsert_twice (store : List Rec) (msg : Message) (c1 c2 : Nat) (t1 t2 : Int)
    (_hne : c1 ≠ c2)
    (habsent : ∀ r ∈ store, recHasKey msg.guildId msg.channelId msg.id r = false) :
    ∃ final : Rec,
      setRecord (setRecord store msg c1 t1) msg c2 t2 = store ++ [final]
      ∧ recHasKey msg.guildId msg.channelId msg.id final = true
      ∧ final.reactionsCount = c2
      ∧ final.createdAt = t1
      ∧ final.timestamp = msg.createdTimestamp
      ∧ final.updatedAt = t2 := by
  have hany : store.any (recHasKey msg.guildId msg.channelId msg.id) = false := by
    rw [List.any_eq_false]
    intro x hx
    simp [habsent x hx]
  have h1 : setRecord store msg c1 t1 = store ++ [insertRow msg c1 t1] := by
    simp [setRecord, hany]
  have hkey : recHasKey msg.guildId msg.channelId msg.id (insertRow msg c1 t1) = true := by
    simp [recHasKey, insertRow]
  have hany2 : (store ++ [insertRow msg c1 t1]).any
      (recHasKey msg.guildId msg.channelId msg.id) = true := by
    rw [List.any_eq_true]
    exact ⟨insertRow msg c1 t1, by simp, hkey⟩
  refine ⟨updateRow msg c2 t2 (insertRow msg c1 t1), ?_, ?_, rfl, rfl, rfl, rfl⟩
  · rw [h1]
    simp only [setRecord, hany2, if_true]
    rw [List.map_append, map_ite_id_of_all_false habsent]
    simp [hkey]
  · simp [recHasKey, updateRow, insertRow]

/-- Witness for C5: two upserts on an initially other-keyed store. -/
theorem upsert_twice_witness :
    ∃ final : Rec,
      setRecord (setRecord [crossRec] sampleMsg 1 10) sampleMsg 2 20 = [crossRec] ++ [final]
      ∧ recHasKey sampleMsg.guildId sampleMsg.channelId sampleMsg.id final = true
      ∧ final.reactionsCount = 2
      ∧ final.createdAt = 10
      ∧ final.timestamp = sampleMsg.createdTimestamp
      ∧ final.updatedAt = 20 :=
  upsert_twice [crossRec] sampleMsg 1 2 10 20 (by decide) (by decide)

/-- C6: deleteOutdated first yields the count of the tenant's records whose
age exceeds the window, leaves exactly the non-outdated records in the store,
and emits the completion yield exactly when that count is positive. -/
theorem deleteOutdated_two_phase (store : List Rec) (g : String) (days : Nat)
    (nowMs : Int) (n : Nat)
    (hn : n = (store.filter (isOutdated g days nowMs)).length) :
    (deleteOutdated store g days nowMs).1
        = .count n :: (if 0 < n then [.done] else [])
    ∧ (deleteOutdated store g days nowMs).2
        = store.filter (fun r => !(isOutdated g days nowMs r))
    ∧ (OutdatedYield.done ∈ (deleteOutdated store g days nowMs).1 ↔ 0 < n) := by
  subst hn
  by_cases hpos : 0 < (store.filter (isOutdated g days nowMs)).length
  · simp [deleteOutdated, hpos]
  · have h0 : (store.filter (isOutdated g days nowMs)).length = 0 :=
      Nat.eq_zero_of_not_pos hpos
    have hnil : store.filter (isOutdated g days nowMs) = [] :=
      List.eq_nil_of_length_eq_zero h0
    have hall : ∀ r ∈ store, isOutdated g days nowMs r = false := by
      intro r hr
      simpa using List.filter_eq_nil_iff.mp hnil r hr
    have hfil : store.filter (fun r => !(isOutdated g days nowMs r)) = store := by
      rw [List.filter_eq_self]
      intro a ha
      simp [hall a ha]
    simp [deleteOutdated, h0, hfil]

/-- Witness for C6: records aged 5, 8 and 10 days against a 7-day window give
count 2, delete the two older records, and leave the 5-day one. -/
theorem deleteOutdated_two_phase_witness :
    (deleteOutdated [agedRec "a" 5, agedRec "b" 8, agedRec "c" 10] "guild-1" 7 0).1
        = [.count 2, .done]
    ∧ (deleteOutdated [agedRec "a" 5, agedRec "b" 8, agedRec "c" 10] "guild-1" 7 0).2
        = [agedRec "a" 5] := by
  have h := deleteOutdated_two_phase [agedRec "a" 5, agedRec "b" 8, agedRec "c" 10]
    "guild-1" 7 0 2 (by decide)
  refine ⟨?_, ?_⟩
  · rw [h.1]; decide
  · rw [h.2.1]; decide

/-- C7: under a fault schedule of `n` transient-busy failures followed by a
successful attempt, a mutating operation is retried after `n` cooperative
yields and completes without surfacing an error, for every `n`; a schedule
whose final attempt throws a non-busy error propagates that error unchanged
after the same retries. -/
theorem busy_retry_contract {σ : Type} (op : σ → σ) (s : σ) (b e : JsError) (n : Nat)
    (hb : isBusyError b = true) (he : isBusyError e = false) :
    runWithRetry op s (List.replicate n (some b) ++ [none]) = some (n, .ok (op s))
    ∧ runWithRetry op s (List.replicate n (some b) ++ [some e]) = some (n, .error e) := by
  induction n with
  | zero => simp [runWithRetry, he]
  | succ n ih =>
    simp [List.replicate_succ, runWithRetry, hb, ih.1, ih.2]

/-- Witness for C7: a store upsert survives three busy failures and succeeds,
while a disk error after the same three retries propagates. -/
theorem busy_retry_contract_witness :
    runWithRetry (fun st => setRecord st sampleMsg 1 0) []
        (List.replicate 3 (some busySample) ++ [none])
      = some (3, .ok (setRecord [] sampleMsg 1 0))
    ∧ runWithRetry (fun st => setRecord st sampleMsg 1 0) []
        (List.replicate 3 (some busySample) ++ [some diskErrSample])
      = some (3, .error diskErrSample) :=
  busy_retry_contract _ [] busySample diskErrSample 3 (by decide) (by decide)

/-- C1 counterexample: guild-1's tick matches and resolves a guild-text
channel, no tracked item of guild-1 has a positive count, yet no "no winners"
notice is sent — a positive-count record of guild-2 in the shared store takes
the tally branch, which then produces nothing for guild-1. -/
theorem noWinners_cross_tenant_cex :
    (timeMatches ⟨0, 0, 0, 0⟩ 0 0 0 = true)
    ∧ (resolvedIsText [⟨"Guild One", [⟨"general", .guildText⟩]⟩] "Guild One" "general"
        = true)
    ∧ (∀ r ∈ [crossRec], r.guildId = "guild-1" → r.reactionsCount = 0)
    ∧ ChannelPost.noWinners ∉ (tick ⟨0, 0, 0, 0⟩ "guild-1" "Guild One" "general" 0 0 0
        [⟨"Guild One", [⟨"general", .guildText⟩]⟩] (fun _ => true) [crossRec]).sends := by
  decide

/-- C1 (amended): on a matched tick that resolves its target guild-text
channel, if no record in the whole shared store — the tenant's or any other
tenant's — has a positive reaction count, the tick posts exactly the
"no winners" notice. -/
theorem noWinners_when_store_all_zero
    (now : ClockNow) (guildId guildName channelName : String)
    (weekday hour minute : Nat) (guilds : List Guild) (fetchable : Rec → Bool)
    (store : List Rec)
    (hmatch : timeMatches now weekday hour minute = true)
    (hch : resolvedIsText guilds guildName channelName = true)
    (hzero : ∀ r ∈ store, r.reactionsCount = 0) :
    (tick now guildId guildName channelName weekday hour minute guilds fetchable
        store).sends = [ChannelPost.noWinners] := by
  have hclean : ((deleteOutdated store guildId 7 now.ms).2).any
      (fun r => 0 < r.reactionsCount) = false := by
    rw [List.any_eq_false]
    intro r hr
    simp [hzero r (mem_of_mem_deleteOutdated_snd hr)]
  simp [tick, hmatch, hch, hclean]

/-- Witness for the amended C1: a zero-count record of another tenant does not
suppress the notice. -/
theorem noWinners_when_store_all_zero_witness :
    (tick ⟨0, 0, 0, 0⟩ "guild-1" "Guild One" "general" 0 0 0
        [⟨"Guild One", [⟨"general", .guildText⟩]⟩] (fun _ => true)
        [{ crossRec with reactionsCount := 0 }]).sends = [ChannelPost.noWinners] :=
  noWinners_when_store_all_zero ⟨0, 0, 0, 0⟩ "guild-1" "Guild One" "general" 0 0 0
    [⟨"Guild One", [⟨"general", .guildText⟩]⟩] (fun _ => true)
    [{ crossRec with reactionsCount := 0 }] (by decide) (by decide) (by decide)

/-- C2 counterexample: with no config record for guild-1, stopAward leaves an
existing timer handle both uncancelled and still registered, so the registry
still has an entry for the tenant afterwards. -/
theorem stopAward_cex :
    ((stopAward [] { instances := [("guild-1", 7)], cancelled := [] }
        "guild-1").instances.lookup "guild-1" = some 7)
    ∧ (stopAward [] { instances := [("guild-1", 7)], cancelled := [] }
        "guild-1").cancelled = [] := by
  decide

/-- C2 (amended): stopAward never removes the registry entry; when a config
record exists and a handle is registered, that handle's timer is cleared;
when no config record exists the call changes nothing at all. -/
theorem stopAward_behavior (config : List ConfigRec) (s : SchedState) (guildId : String) :
    ((stopAward config s guildId).instances = s.instances)
    ∧ (configGet config guildId = none → stopAward config s guildId = s)
    ∧ (∀ cfg t, configGet config guildId = some cfg →
        s.instances.lookup guildId = some t →
        (stopAward config s guildId).cancelled = t :: s.cancelled) := by
  refine ⟨?_, ?_, ?_⟩
  · simp only [stopAward]
    cases configGet config guildId with
    | none => rfl
    | some cfg =>
      cases s.instances.lookup guildId with
      | none => rfl
      | some t => rfl
  · intro h
    simp [stopAward, h]
  · intro cfg t hcfg hl
    simp [stopAward, hcfg, hl]

/-- Witness for the amended C2: a registered tenant's handle is cleared but
its registry entry survives. -/
theorem stopAward_behavior_witness :
    ((stopAward [sampleCfg] { instances := [("guild-1", 5)], cancelled := [] }
        "guild-1").instances = [("guild-1", 5)])
    ∧ (stopAward [sampleCfg] { instances := [("guild-1", 5)], cancelled := [] }
        "guild-1").cancelled = [5] :=
  ⟨(stopAward_behavior [sampleCfg] ⟨[("guild-1", 5)], []⟩ "guild-1").1,
   (stopAward_behavior [sampleCfg] ⟨[("guild-1", 5)], []⟩ "guild-1").2.2 sampleCfg 5
     (by decide) (by decide)⟩

/-- C8: when every stored record belongs to the ticking tenant and is
resolvable, a time-matched tick that resolves its channel posts exactly one
primary message and reschedules 596 160 000 ms = 86400·1000·6.9 ms later,
while a non-matching tick posts nothing and reschedules 1000 ms later. -/
theorem tick_schedule
    (now : ClockNow) (guildId guildName channelName : String)
    (weekday hour minute : Nat) (guilds : List Guild) (fetchable : Rec → Bool)
    (store : List Rec)
    (htenant : ∀ r ∈ store, r.guildId = guildId ∧ fetchable r = true) :
    (timeMatches now weekday hour minute = true →
      resolvedIsText guilds guildName channelName = true →
      (tick now guildId guildName channelName weekday hour minute guilds fetchable
          store).sends.length = 1
        ∧ (tick now guildId guildName channelName weekday hour minute guilds fetchable
            store).nextDelayMs = nextWeekDelayMs)
    ∧ (timeMatches now weekday hour minute = false →
      (tick now guildId guildName channelName weekday hour minute guilds fetchable
          store).sends = []
        ∧ (tick now guildId guildName channelName weekday hour minute guilds fetchable
            store).threadSends = []
        ∧ (tick now guildId guildName channelName weekday hour minute guilds fetchable
            store).nextDelayMs = pollDelayMs)
    ∧ nextWeekDelayMs = 596160000 ∧ pollDelayMs = 1000 := by
  refine ⟨?_, ?_, rfl, rfl⟩
  · intro hmatch hch
    have hsub : ∀ r ∈ (deleteOutdated store guildId 7 now.ms).2,
        r.guildId = guildId ∧ fetchable r = true :=
      fun r hr => htenant r (mem_of_mem_deleteOutdated_snd hr)
    have hcollect : collectMessages guildId fetchable (deleteOutdated store guildId 7 now.ms).2
        = (deleteOutdated store guildId 7 now.ms).2 := by
      rw [collectMessages, List.filter_eq_self]
      intro r hr
      simp [(hsub r hr).1, (hsub r hr).2]
    cases hany : (deleteOutdated store guildId 7 now.ms).2.any
        (fun r => 0 < r.reactionsCount) with
    | false => simp [tick, hmatch, hch, hany]
    | true =>
      have hne : (deleteOutdated store guildId 7 now.ms).2 ≠ [] := by
        obtain ⟨r, hr, _⟩ := List.any_eq_true.mp hany
        exact List.ne_nil_of_mem hr
      have hcnil : tallyContents (collectMessages guildId fetchable
          (deleteOutdated store guildId 7 now.ms).2) ≠ [] := by
        rw [hcollect]
        exact tallyContents_ne_nil hne
      cases hc : tallyContents (collectMessages guildId fetchable
          (deleteOutdated store guildId 7 now.ms).2) with
      | nil => exact absurd hc hcnil
      | cons first rest => simp [tick, hmatch, hch, hany, hc]
  · intro hmatch
    simp [tick, hmatch]

/-- Witness for C8: the matched-tick half at a concrete single-tenant store. -/
theorem tick_schedule_witness :
    (tick ⟨0, 0, 0, 0⟩ "guild-1" "Guild One" "general" 0 0 0
        [⟨"Guild One", [⟨"general", .guildText⟩]⟩] (fun _ => true)
        [sampleRec "a" 2]).sends.length = 1
    ∧ (tick ⟨0, 0, 0, 0⟩ "guild-1" "Guild One" "general" 0 0 0
        [⟨"Guild One", [⟨"general", .guildText⟩]⟩] (fun _ => true)
        [sampleRec "a" 2]).nextDelayMs = nextWeekDelayMs :=
  (tick_schedule ⟨0, 0, 0, 0⟩ "guild-1" "Guild One" "general" 0 0 0
    [⟨"Guild One", [⟨"general", .guildText⟩]⟩] (fun _ => true)
    [sampleRec "a" 2] (by decide)).1 (by decide) (by decide)

/-- C9: a matched tick whose guild/channel display-name resolution does not
yield a guild-text channel leaves the store untouched, posts nothing, does
not vacuum, and still reschedules the next check 6.9 days later. -/
theorem unresolved_channel_skips
    (now : ClockNow) (guildId guildName channelName : String)
    (weekday hour minute : Nat) (guilds : List Guild) (fetchable : Rec → Bool)
    (store : List Rec)
    (hmatch : timeMatches now weekday hour minute = true)
    (hch : resolvedIsText guilds guildName channelName = false) :
    tick now guildId guildName channelName weekday hour minute guilds fetchable store
      = { sends := [], threadSends := [], storeAfter := store, vacuumed := false
          nextDelayMs := nextWeekDelayMs } := by
  simp [tick, hmatch, hch]

/-- Witness for C9: the configured channel name no longer exists in the
resolved guild (as after a rename), on a matched tick. -/
theorem unresolved_channel_skips_witness :
    tick ⟨0, 0, 0, 0⟩ "guild-1" "Guild One" "general" 0 0 0
        [⟨"Guild One", [⟨"renamed", ChannelType.guildText⟩]⟩] (fun _ => true)
        [agedRec "old" 10]
      = { sends := [], threadSends := [], storeAfter := [agedRec "old" 10]
          vacuumed := false, nextDelayMs := nextWeekDelayMs } :=
  unresolved_channel_skips ⟨0, 0, 0, 0⟩ "guild-1" "Guild One" "general" 0 0 0
    [⟨"Guild One", [⟨"renamed", ChannelType.guildText⟩]⟩] (fun _ => true)
    [agedRec "old" 10] (by decide) (by decide)

/-- C10: a reaction-added event upserts only when the message's tenant is
registered; a reaction-removed event ignores registration — a positive
remaining total upserts (inserting a fresh row when the key is absent, even
for an unregistered tenant) and a zero total deletes the record. -/
theorem reaction_handler_behavior (config : List ConfigRec) (store : List Rec)
    (msg : Message) (count : Nat) (now : Int) :
    (configGet config msg.guildId = none →
        onReactionAdd config store msg false true count now = store)
    ∧ (∀ cfg, configGet config msg.guildId = some cfg →
        onReactionAdd config store msg false true count now
          = setRecord store msg count now)
    ∧ (0 < count →
        onReactionRemove store msg false true count now = setRecord store msg count now)
    ∧ (0 < count →
        (∀ r ∈ store, recHasKey msg.guildId msg.channelId msg.id r = false) →
        onReactionRemove store msg false true count now
          = store ++ [insertRow msg count now])
    ∧ (onReactionRemove store msg false true 0 now
        = deleteRecord store msg.guildId msg.channelId msg.id) := by
  refine ⟨?_, ?_, ?_, ?_, ?_⟩
  · intro h
    simp [onReactionAdd, h]
  · intro cfg h
    simp [onReactionAdd, h]
  · intro hc
    simp [onReactionRemove, hc]
  · intro hc habsent
    have hany : store.any (recHasKey msg.guildId msg.channelId msg.id) = false := by
      rw [List.any_eq_false]
      intro x hx
      simp [habsent x hx]
    simp [onReactionRemove, hc, setRecord, hany]
  · simp [onReactionRemove]

/-- Witness for C10: with no registration at all, an add is dropped while a
remove with remaining total 2 inserts the record. -/
theorem reaction_handler_behavior_witness :
    (onReactionAdd [] [] sampleMsg false true 2 0 = [])
    ∧ (onReactionRemove [] sampleMsg false true 2 0 = [] ++ [insertRow sampleMsg 2 0]) :=
  ⟨(reaction_handler_behavior [] [] sampleMsg 2 0).1 (by decide),
   (reaction_handler_behavior [] [] sampleMsg 2 0).2.2.2.1 (by decide) (by decide)⟩

end WeeklyAwards
